import Mathlib

set_option maxRecDepth 100000

/-!
Verification of the date-resolution engine of the calendar-event manager
(`src/server/routes.ts`, with the schema of `src/shared/schema.ts`).

The JavaScript runtime represents a `Date` as a timestamp; all code under
verification constructs dates at local midnight and manipulates them at
day granularity, so a date is modelled as its day number (days since
1970-01-01, negative before).  The civil (year, month, day) view of a day
number and the day number of a civil triple follow the proleptic Gregorian
calendar, which is exactly the arithmetic the ECMAScript `Date` operations
(`MakeDay`, `getFullYear`, `getMonth`, `getDate`, `getDay`, `setDate`,
`setMonth`, `setFullYear`) perform on such midnight timestamps.

Integer division below is `Int`'s `/` (Euclidean); every divisor is
positive, where Euclidean and floor division coincide, matching the
floor divisions of the calendar algorithms.
-/

/-- Gregorian leap-year test.  JavaScript date arithmetic follows the
Gregorian rules: divisible by 4 and (not by 100 or by 400). -/
def isLeap (y : Int) : Bool :=
  y % 4 == 0 && (y % 100 != 0 || y % 400 == 0)

/-- Number of days of month `m` (1-12) of year `y`. -/
def daysInMonth (y m : Int) : Int :=
  if m = 2 then (if isLeap y then 29 else 28)
  else if m = 4 ∨ m = 6 ∨ m = 9 ∨ m = 11 then 30
  else 31

/-- Day number (days since 1970-01-01) of the civil date `(y, m, d)` with
`m` in 1..12, proleptic Gregorian.  Standard civil-from-days arithmetic:
the year is shifted so that it starts in March (putting the leap day
last), `doy` is the day of that shifted year. -/
def civilToDays (y m d : Int) : Int :=
  let y' := y - (if m ≤ 2 then 1 else 0)
  let mp := (m + 9) % 12
  let doy := (153 * mp + 2) / 5 + d - 1
  365 * y' + y' / 4 - y' / 100 + y' / 400 + doy - 719468

/-- Helper of the days-to-civil algorithm: day-of-era of the first day of
shifted year `k` (years counted from March so the leap day comes last). -/
def hinF (k : Int) : Int := 365 * k + k / 4 - k / 100

/-- Helper of the days-to-civil algorithm: a map whose quotient by 365
recovers the shifted year from a day-of-era. -/
def hinG (x : Int) : Int := x - x / 1460 + x / 36524 - x / 146096

/-- Civil date `(y, m, d)` of a day number, inverse of `civilToDays`
(standard days-to-civil algorithm over 400-year eras). -/
def civilFromDays (z : Int) : Int × Int × Int :=
  let z' := z + 719468
  let era := z' / 146097
  let doe := z' - era * 146097
  let yoe := hinG doe / 365
  let y := yoe + era * 400
  let doy := doe - hinF yoe
  let mp := (5 * doy + 2) / 153
  let d := doy - (153 * mp + 2) / 5 + 1
  let m := if mp < 10 then mp + 3 else mp - 9
  (y + (if m ≤ 2 then 1 else 0), m, d)

/-- Month-layer recovery table: splitting a day of a March-based year into
month and day. -/
def mpProp (doy : Int) : Prop :=
  let mp := (5 * doy + 2) / 153
  let dd := doy - (153 * mp + 2) / 5 + 1
  0 ≤ mp ∧ mp ≤ 11 ∧ 1 ≤ dd ∧
    dd ≤ (if mp = 11 then 29 else if mp = 1 ∨ mp = 3 ∨ mp = 6 ∨ mp = 8 then 30 else 31) ∧
    (153 * mp + 2) / 5 + dd - 1 = doy ∧ (mp = 11 → dd = doy - 336)

instance (doy : Int) : Decidable (mpProp doy) := by
  unfold mpProp; infer_instance

/-- First day of the month with global month counter `t = 12*y + (m-1)`. -/
def monthFirst (t : Int) : Int := civilToDays (t / 12) (t % 12 + 1) 1

/-! JavaScript `Date` operations on day numbers.  A `Date` produced by the
code under verification always sits at local midnight, so it is fully
described by its day number; the getters read civil components, `getDay`
reads the weekday (0 = Sunday, 1970-01-01 being a Thursday), and
`new Date(y, monthIndex, day)` is ECMAScript `MakeDay`: the month index is
normalised by floor-division into the year, and the day is added with
overflow (day 0 is the last day of the previous month). -/

/-- Model of `Date.prototype.getDay`: weekday 0..6, Sunday = 0. -/
def jsGetDay (z : Int) : Int := (z + 4) % 7

/-- Model of `Date.prototype.getFullYear`. -/
def jsGetFullYear (z : Int) : Int := (civilFromDays z).1

/-- Model of `Date.prototype.getMonth` (0-based month index). -/
def jsGetMonth (z : Int) : Int := (civilFromDays z).2.1 - 1

/-- Model of `Date.prototype.getDate` (1-based day of month). -/
def jsGetDate (z : Int) : Int := (civilFromDays z).2.2

/-- Model of `new Date(y, monthIndex, day)` (ECMAScript `MakeDay`). -/
def mkDate (y mIdx d : Int) : Int :=
  civilToDays (y + mIdx / 12) (mIdx % 12 + 1) 1 + (d - 1)

/-- Model of `d.setDate(d.getDate() + delta)`: shifting a midnight date by
`delta` days adds `delta` to the day number. -/
def jsAddDays (z delta : Int) : Int := z + delta

/-- Model of `d.setMonth(mIdx)` on a midnight date. -/
def jsSetMonth (z mIdx : Int) : Int := mkDate (jsGetFullYear z) mIdx (jsGetDate z)

/-- Model of `d.setFullYear(y)` on a midnight date. -/
def jsSetFullYear (z y : Int) : Int := mkDate y (jsGetMonth z) (jsGetDate z)

/-! Embedding of the data model (`src/shared/schema.ts`, interface `Event`)
and of the date-resolution helpers of `src/server/routes.ts`
(`calculateNthDate`, `calculateRelativeDate`, `calculateEventDate`). -/

/-- Value stored in `startDate` as the resolver sees it: the code's
`parseSimpleDate` accepts either a string or a `Date` object. -/
inductive DateValue where
  | str : String → DateValue
  | date : Int → DateValue
deriving DecidableEq

/-- Event record of `src/shared/schema.ts`.  Nullable fields are `Option`;
`dateType`, `relativeUnit` and `relativeDirection` are kept as strings
because `calculateEventDate` takes `event: any` and switches on the raw
string values (with a default branch for anything else). -/
structure Event where
  id : String
  title : String
  dateType : String
  startDate : Option DateValue := none
  endDate : Option DateValue := none
  nthOccurrence : Option Int := none
  dayOfWeek : Option Int := none
  month : Option Int := none
  baseYear : Option Int := none
  relativePeriod : Option Int := none
  relativeUnit : Option String := none
  relativeDirection : Option String := none
  relativeEventName : Option String := none
deriving DecidableEq

/-- JavaScript truthiness of a nullable `Date`-or-string value:
`null`/`undefined` and the empty string are falsy, any `Date` object is
truthy. -/
def truthyDV : Option DateValue → Bool
  | none => false
  | some (.str s) => s != ""
  | some (.date _) => true

/-- Model of JavaScript `String.prototype.split` with a one-character
separator, over the character list of the string: `"a-b".split('-')` is
`["a", "b"]`, and splitting the empty string yields `[""]`. -/
def jsSplit (sep : Char) : List Char → List (List Char)
  | [] => [[]]
  | c :: rest =>
    let r := jsSplit sep rest
    if c = sep then [] :: r
    else
      match r with
      | [] => [[c]]
      | h :: t => (c :: h) :: t

/-- Model of JavaScript `parseInt` on the substrings produced by splitting a
date string: the value of the leading run of decimal digits, `none` when
there is none (`parseInt` then yields `NaN`; a leading sign never occurs in
the date strings the resolver splits). -/
def jsParseInt (l : List Char) : Option Int :=
  let digits := l.takeWhile Char.isDigit
  if digits.isEmpty then none
  else some (Int.ofNat (digits.foldl (fun acc c => acc * 10 + (c.toNat - 48)) 0))

/-- Model of the resolver's `parseSimpleDate` (routes.ts lines 190-196): for
a string, split off the `YYYY-MM-DD` prefix at `'T'`, split it at `'-'` and
build the date from the literal components via `new Date(y, m-1, d)`; a
`Date` value is passed through (`new Date(dateValue)` copies the
timestamp).  `none` models the `Invalid Date` produced when a component
fails to parse; no claim exercises that corner. -/
def parseSimpleDate (v : DateValue) : Option Int :=
  match v with
  | .str s =>
    let dateOnly := (jsSplit 'T' s.data).headD []
    let parts := jsSplit '-' dateOnly
    match parts[0]?, parts[1]?, parts[2]? with
    | some ys, some ms, some ds =>
      match jsParseInt ys, jsParseInt ms, jsParseInt ds with
      | some y, some m, some d => some (mkDate y (m - 1) d)
      | _, _, _ => none
    | _, _, _ => none
  | .date z => some z

/-- Model of the loop `while (date.getDay() !== dayOfWeek) date.setDate(
date.getDate() + 1)`.  Since `getDay` ranges over 0..6, the loop stops after
at most 6 steps whenever `dayOfWeek` is in 0..6, so running the search with
fuel 7 is exact; `none` models the loop never terminating (only possible
for a day-of-week outside 0..6, which the schema excludes). -/
def scanWeekdayFwd : Nat → Int → Int → Option Int
  | 0, _, _ => none
  | fuel + 1, z, dow => if jsGetDay z = dow then some z else scanWeekdayFwd fuel (z + 1) dow

/-- Model of the backward loop `while (lastDate.getDay() !== dayOfWeek)
lastDate.setDate(lastDate.getDate() - 1)`, bounded like `scanWeekdayFwd`. -/
def scanWeekdayBwd : Nat → Int → Int → Option Int
  | 0, _, _ => none
  | fuel + 1, z, dow => if jsGetDay z = dow then some z else scanWeekdayBwd fuel (z - 1) dow

/-- Model of `calculateNthDate` (routes.ts lines 118-152).  `none` models
the `throw new Error` for a missing nth occurrence (the only `throw` the
function contains for day-of-week 0..6). -/
def calculateNthDate (nthOccurrence dayOfWeek month year : Int) : Option Int :=
  let firstDay := mkDate year (month - 1) 1
  match scanWeekdayFwd 7 firstDay dayOfWeek with
  | none => none
  | some date =>
    if nthOccurrence = -1 then
      let lastDay := mkDate year month 0
      scanWeekdayBwd 7 lastDay dayOfWeek
    else
      let date2 := jsAddDays date ((nthOccurrence - 1) * 7)
      if jsGetMonth date2 ≠ month - 1 then none
      else some date2

/-- Model of `calculateRelativeDate` (routes.ts lines 155-182): signed
offset applied to the base date, scaled by the unit; `none` models the
`throw new Error` of the `default` branch (invalid unit). -/
def calculateRelativeDate (baseDate period : Int) (unit direction : String) : Option Int :=
  let multiplier : Int := if direction = "before" then -1 else 1
  match unit with
  | "days" => some (jsAddDays baseDate (period * multiplier))
  | "weeks" => some (jsAddDays baseDate (period * 7 * multiplier))
  | "months" => some (jsSetMonth baseDate (jsGetMonth baseDate + period * multiplier))
  | "years" => some (jsSetFullYear baseDate (jsGetFullYear baseDate + period * multiplier))
  | _ => none

/-- Outcome of a fuel-bounded run of `calculateEventDate`: either the
function returns (a `Date` or `null`, i.e. `Option Int`), or the bounded
recursion ran out of fuel at every depth, which models the unbounded
recursion of the JavaScript function (ending in a stack overflow). -/
inductive ResolveResult where
  | diverged : ResolveResult
  | value : Option Int → ResolveResult
deriving DecidableEq

/-- Model of `calculateEventDate` (routes.ts lines 185-240), the date
resolver.  `fuel` bounds the recursion depth of the `relative` branch,
which the source recurses on with no cycle guard; `currentYear` models
`new Date().getFullYear()`, read when an nth-mode event has a falsy
`baseYear`.  Truthiness checks mirror the code: `!event.nthOccurrence`
and `!event.month` are false for `null` and `0`; `dayOfWeek` is only
compared against `null`/`undefined`; the relative-mode guard
`!event.relativeEventName || !event.relativePeriod || !event.relativeUnit
|| !event.relativeDirection` is false for `null`, `0` and the empty
string; exceptions of the two helpers are caught and turned into `null`. -/
def calculateEventDate : Nat → Int → Event → List Event → ResolveResult
  | 0, _, _, _ => .diverged
  | fuel + 1, currentYear, event, allEvents =>
    match event.dateType with
    | "fixed" =>
      if truthyDV event.startDate then .value (event.startDate.bind parseSimpleDate)
      else .value none
    | "nth" =>
      match event.nthOccurrence, event.dayOfWeek, event.month with
      | some nth, some dow, some mon =>
        if nth = 0 ∨ mon = 0 then .value none
        else
          let baseYear := match event.baseYear with
            | some b => if b = 0 then currentYear else b
            | none => currentYear
          .value (calculateNthDate nth dow mon baseYear)
      | _, _, _ => .value none
    | "relative" =>
      match event.relativeEventName, event.relativePeriod, event.relativeUnit,
          event.relativeDirection with
      | some name, some period, some unit, some dir =>
        if name = "" ∨ period = 0 ∨ unit = "" ∨ dir = "" then .value none
        else
          match allEvents.find? (fun e => e.title == name) with
          | none => .value none
          | some referenceEvent =>
            match calculateEventDate fuel currentYear referenceEvent allEvents with
            | .diverged => .diverged
            | .value none => .value none
            | .value (some referenceDate) =>
              .value (calculateRelativeDate referenceDate period unit dir)
      | _, _, _, _ => .value none
    | _ => .value none

/-- Type-correctness of an event record: the field types of interface
`Event` in `src/shared/schema.ts` together with the bounds the boundary
validation layer (`insertEventSchema`) enforces before an event reaches
storage.  In particular `relativeUnit` is one of the four unit strings or
null, and `relativeDirection` is `before`/`after` or null. -/
def typeCorrect (e : Event) : Bool :=
  (e.dateType == "fixed" || e.dateType == "nth" || e.dateType == "relative") &&
    (match e.nthOccurrence with
      | none => true
      | some n => decide (-1 ≤ n) && decide (n ≤ 4)) &&
    (match e.dayOfWeek with
      | none => true
      | some w => decide (0 ≤ w) && decide (w ≤ 6)) &&
    (match e.month with
      | none => true
      | some mo => decide (1 ≤ mo) && decide (mo ≤ 12)) &&
    (match e.baseYear with
      | none => true
      | some b => decide (2020 ≤ b) && decide (b ≤ 2050)) &&
    (match e.relativePeriod with
      | none => true
      | some p => decide (1 ≤ p)) &&
    (match e.relativeUnit with
      | none => true
      | some u => u == "days" || u == "weeks" || u == "months" || u == "years") &&
    (match e.relativeDirection with
      | none => true
      | some d => d == "before" || d == "after")

/-- A required field of the event's active date mode is missing (null). -/
def missingActiveField (e : Event) : Prop :=
  (e.dateType = "fixed" ∧ e.startDate = none) ∨
    (e.dateType = "nth" ∧
      (e.nthOccurrence = none ∨ e.dayOfWeek = none ∨ e.month = none)) ∨
    (e.dateType = "relative" ∧
      (e.relativeEventName = none ∨ e.relativePeriod = none ∨
        e.relativeUnit = none ∨ e.relativeDirection = none))

instance (e : Event) : Decidable (missingActiveField e) := by
  unfold missingActiveField; infer_instance

/-- An event whose resolution never reads the wall clock: every nth-mode
event carries a truthy `baseYear` (otherwise the code falls back to
`new Date().getFullYear()`). -/
def clockFree (e : Event) : Bool :=
  e.dateType != "nth" || (match e.baseYear with | none => false | some b => b != 0)

/-- A relative event whose `relativeEventName` is its own title. -/
def evCycleSelf : Event :=
  { id := "e-self", title := "Launch", dateType := "relative",
    relativePeriod := some 3, relativeUnit := some "days",
    relativeDirection := some "before", relativeEventName := some "Launch" }

/-- A relative event referencing `evCycleB` by title. -/
def evCycleA : Event :=
  { id := "e-a", title := "Alpha", dateType := "relative",
    relativePeriod := some 1, relativeUnit := some "weeks",
    relativeDirection := some "after", relativeEventName := some "Beta" }

/-- A relative event referencing `evCycleA` by title. -/
def evCycleB : Event :=
  { id := "e-b", title := "Beta", dateType := "relative",
    relativePeriod := some 2, relativeUnit := some "days",
    relativeDirection := some "before", relativeEventName := some "Alpha" }

/-- A self-referencing relative event whose unit is outside
`days/weeks/months/years`. -/
def evBadUnitCycle : Event :=
  { id := "e-bad", title := "Loop", dateType := "relative",
    relativePeriod := some 1, relativeUnit := some "fortnights",
    relativeDirection := some "after", relativeEventName := some "Loop" }

/-- An nth-mode event with `dayOfWeek` null (missing-fields condition). -/
def evMissingDow : Event :=
  { id := "e-miss", title := "Payday", dateType := "nth",
    nthOccurrence := some 2, dayOfWeek := none, month := some 3,
    baseYear := some 2024 }

/-- An nth-mode event requesting a 5th Monday of February 2024, which does
not exist (no-such-occurrence condition). -/
def evNoOcc : Event :=
  { id := "e-nocc", title := "Fifth", dateType := "nth",
    nthOccurrence := some 5, dayOfWeek := some 1, month := some 2,
    baseYear := some 2024 }

/-- A fixed event with a plain `YYYY-MM-DD` start date string. -/
def evAnchor : Event :=
  { id := "e-anchor", title := "Anchor", dateType := "fixed",
    startDate := some (.str "2024-06-01") }

/-- A relative event with an invalid unit whose reference resolves
(invalid-unit condition). -/
def evBadUnitOk : Event :=
  { id := "e-bu", title := "Offset", dateType := "relative",
    relativePeriod := some 1, relativeUnit := some "fortnights",
    relativeDirection := some "after", relativeEventName := some "Anchor" }

/-- A relative event whose `relativeEventName` matches no title
(reference-not-found condition). -/
def evRefNF : Event :=
  { id := "e-rnf", title := "Orphan", dateType := "relative",
    relativePeriod := some 1, relativeUnit := some "days",
    relativeDirection := some "after", relativeEventName := some "Nobody" }

/-- An nth-mode event without a `baseYear`: its resolution reads the
current year from the wall clock. -/
def evNoBase : Event :=
  { id := "e-nb", title := "Floating", dateType := "nth",
    nthOccurrence := some 1, dayOfWeek := some 1, month := some 3 }

theorem civilToDays_day_succ (y m d : Int) :
    civilToDays y m (d + 1) = civilToDays y m d + 1 := by
  simp only [civilToDays]; ring

theorem monthSucc1 (y : Int) : civilToDays y 1 31 + 1 = civilToDays y 2 1 := by
  simp only [civilToDays]; norm_num; omega

theorem monthSucc2 (y : Int) :
    civilToDays y 2 (if isLeap y then 29 else 28) + 1 = civilToDays y 3 1 := by
  have h4 : y / 4 = (y - 1) / 4 + (if (4 : Int) ∣ y then 1 else 0) := by
    split <;> omega
  have h100 : y / 100 = (y - 1) / 100 + (if (100 : Int) ∣ y then 1 else 0) := by
    split <;> omega
  have h400 : y / 400 = (y - 1) / 400 + (if (400 : Int) ∣ y then 1 else 0) := by
    split <;> omega
  simp only [civilToDays, isLeap]
  norm_num
  split <;> omega

theorem monthSucc3 (y : Int) : civilToDays y 3 31 + 1 = civilToDays y 4 1 := by
  simp only [civilToDays]; norm_num; omega
theorem monthSucc4 (y : Int) : civilToDays y 4 30 + 1 = civilToDays y 5 1 := by
  simp only [civilToDays]; norm_num; omega
theorem monthSucc5 (y : Int) : civilToDays y 5 31 + 1 = civilToDays y 6 1 := by
  simp only [civilToDays]; norm_num; omega
theorem monthSucc6 (y : Int) : civilToDays y 6 30 + 1 = civilToDays y 7 1 := by
  simp only [civilToDays]; norm_num; omega
theorem monthSucc7 (y : Int) : civilToDays y 7 31 + 1 = civilToDays y 8 1 := by
  simp only [civilToDays]; norm_num; omega
theorem monthSucc8 (y : Int) : civilToDays y 8 31 + 1 = civilToDays y 9 1 := by
  simp only [civilToDays]; norm_num; omega
theorem monthSucc9 (y : Int) : civilToDays y 9 30 + 1 = civilToDays y 10 1 := by
  simp only [civilToDays]; norm_num; omega
theorem monthSucc10 (y : Int) : civilToDays y 10 31 + 1 = civilToDays y 11 1 := by
  simp only [civilToDays]; norm_num; omega
theorem monthSucc11 (y : Int) : civilToDays y 11 30 + 1 = civilToDays y 12 1 := by
  simp only [civilToDays]; norm_num; omega
theorem monthSucc12 (y : Int) : civilToDays y 12 31 + 1 = civilToDays (y + 1) 1 1 := by
  simp only [civilToDays]; norm_num; omega

/-- The day after the last day of a month is the first day of the next month. -/
theorem civilToDays_month_succ (y m : Int) (h1 : 1 ≤ m) (h2 : m ≤ 12) :
    civilToDays y m (daysInMonth y m) + 1 =
      if m = 12 then civilToDays (y + 1) 1 1 else civilToDays y (m + 1) 1 := by
  interval_cases m <;>
    simp only [daysInMonth, reduceIte] <;>
    norm_num [monthSucc1, monthSucc2, monthSucc3, monthSucc4, monthSucc5, monthSucc6,
      monthSucc7, monthSucc8, monthSucc9, monthSucc10, monthSucc11, monthSucc12]

theorem hinG_step (x : Int) (h1 : 0 ≤ x) (h2 : x < 146096) :
    hinG x ≤ hinG (x + 1) := by
  simp only [hinG]; omega

theorem hinG_mono {a b : Int} (h0 : 0 ≤ a) (hab : a ≤ b) (hb : b ≤ 146096) :
    hinG a ≤ hinG b := by
  have H := Int.le_induction (P := fun n => n ≤ 146096 → hinG a ≤ hinG n)
    (fun _ => le_refl _)
    (fun n hn ih hb' => by
      have hn0 : 0 ≤ n := le_trans h0 hn
      have ha1 : hinG n ≤ hinG (n + 1) := hinG_step n hn0 (by omega)
      have ha2 := ih (by omega)
      omega) b hab
  exact H hb

theorem hinF_mono {a b : Int} (hab : a ≤ b) : hinF a ≤ hinF b := by
  exact Int.le_induction (P := fun n => hinF a ≤ hinF n) (le_refl _)
    (fun n hn ih => by
      have ha1 : hinF n ≤ hinF (n + 1) := by simp only [hinF]; omega
      omega) b hab

theorem hinE1 : ∀ k : Nat, k < 400 → 365 * (k : Int) ≤ hinG (hinF k) := by decide

theorem hinE2 : ∀ k : Nat, k < 400 → k = 0 ∨ hinG (hinF k - 1) < 365 * (k : Int) := by
  decide

/-- Recovering the shifted year from a day-of-era. -/
theorem yoe_recover (doe : Int) (h1 : 0 ≤ doe) (h2 : doe ≤ 146096) :
    0 ≤ hinG doe / 365 ∧ hinG doe / 365 ≤ 399 ∧ hinF (hinG doe / 365) ≤ doe ∧
      (doe < hinF (hinG doe / 365 + 1) ∨ hinG doe / 365 = 399) := by
  have hG0 : 0 ≤ hinG doe := by simp only [hinG]; omega
  set yoe := hinG doe / 365 with hyoe
  have heuc1 : 365 * yoe ≤ hinG doe := by omega
  have heuc2 : hinG doe < 365 * yoe + 365 := by omega
  have hy0 : 0 ≤ yoe := by positivity
  have hcap : hinG doe ≤ hinG 146096 := hinG_mono h1 h2 (by norm_num)
  have hcapv : hinG 146096 = 145999 := by decide
  have hy399 : yoe ≤ 399 := by omega
  have hFbound : hinF yoe ≤ doe := by
    by_contra hcon
    push_neg at hcon
    rcases eq_or_lt_of_le hy0 with h0 | hpos
    · have hv : hinF yoe = hinF 0 := by rw [← h0]
      have hv0 : hinF 0 = 0 := by decide
      omega
    · -- 1 ≤ yoe ≤ 399; use hinE2 at k = yoe
      have hk := hinE2 yoe.toNat (by omega)
      rcases hk with hk0 | hk
      · omega
      · rw [Int.toNat_of_nonneg hy0] at hk
        have hmon : hinG doe ≤ hinG (hinF yoe - 1) := by
          apply hinG_mono h1 (by omega)
          have : hinF yoe ≤ hinF 399 := hinF_mono (by omega)
          have h399 : hinF 399 = 145731 := by decide
          omega
        omega
  refine ⟨hy0, hy399, hFbound, ?_⟩
  rcases eq_or_lt_of_le hy399 with heq | hlt
  · right; exact heq
  · left
    by_contra hcon
    push_neg at hcon
    have hk := hinE1 (yoe + 1).toNat (by omega)
    rw [Int.toNat_of_nonneg (by omega)] at hk
    have hmon : hinG (hinF (yoe + 1)) ≤ hinG doe := by
      apply hinG_mono _ hcon h2
      have : hinF 0 ≤ hinF (yoe + 1) := hinF_mono (by omega)
      have h0 : hinF 0 = 0 := by decide
      omega
    omega

theorem mpTable : ∀ n : Nat, n < 366 → mpProp (n : Int) := by decide

theorem mp_recover (doy : Int) (h1 : 0 ≤ doy) (h2 : doy ≤ 365) : mpProp doy := by
  have := mpTable doy.toNat (by omega)
  rwa [Int.toNat_of_nonneg h1] at this

/-- Main inverse: `civilFromDays` produces a valid civil triple mapping back
to the given day number. -/
theorem civilFromDays_spec (z : Int) :
    1 ≤ (civilFromDays z).2.1 ∧ (civilFromDays z).2.1 ≤ 12 ∧
      1 ≤ (civilFromDays z).2.2 ∧
      (civilFromDays z).2.2 ≤ daysInMonth (civilFromDays z).1 (civilFromDays z).2.1 ∧
      civilToDays (civilFromDays z).1 (civilFromDays z).2.1 (civilFromDays z).2.2 = z := by
  simp only [civilFromDays]
  set z' := z + 719468 with hz'
  set era := z' / 146097 with hera
  set doe := z' - era * 146097 with hdoe
  have hd1 : 0 ≤ doe := by omega
  have hd2 : doe ≤ 146096 := by omega
  obtain ⟨hy0, hy399, hF, hUp⟩ := yoe_recover doe hd1 hd2
  set yoe := hinG doe / 365 with hyoe
  set doy := doe - hinF yoe with hdoy
  have hdoy0 : 0 ≤ doy := by omega
  have hdoy365 : doy ≤ 365 := by
    rcases hUp with hlt | h399
    · have : hinF (yoe + 1) - hinF yoe ≤ 366 := by simp only [hinF]; omega
      omega
    · have h399v : hinF 399 = 145731 := by decide
      rw [h399] at hdoy
      omega
  obtain ⟨hmp0, hmp11, hdd1, hddU, hreasm, hfeb⟩ := mp_recover doy hdoy0 hdoy365
  set mp := (5 * doy + 2) / 153 with hmp
  set dd := doy - (153 * mp + 2) / 5 + 1 with hdd
  set m := if mp < 10 then mp + 3 else mp - 9 with hm
  set yout := yoe + era * 400 + (if m ≤ 2 then 1 else 0) with hyout
  have hm1 : 1 ≤ m := by rw [hm]; split <;> omega
  have hm12 : m ≤ 12 := by rw [hm]; split <;> omega
  have hshift : yout - (if m ≤ 2 then 1 else 0) = yoe + era * 400 := by omega
  have hmpm : (m + 9) % 12 = mp := by rw [hm]; split <;> omega
  refine ⟨hm1, hm12, hdd1, ?_, ?_⟩
  · -- day bound
    by_cases hc : mp = 11
    · have hmeq : m = 2 := by rw [hm]; omega
      have hdd29 : dd = doy - 336 := hfeb hc
      rw [hmeq]
      simp only [daysInMonth, reduceIte]
      by_cases hdoylast : doy = 365
      · -- needs leap year
        have hleap : isLeap yout = true := by
          have hm2 : (if m ≤ 2 then (1:Int) else 0) = 1 := by rw [hmeq]; norm_num
          rcases hUp with hlt | h399
          · have hstep : hinF (yoe + 1) - hinF yoe ≥ 366 := by omega
            have hdvd : (4 : Int) ∣ (yoe + 1) ∧ ¬ (100 : Int) ∣ (yoe + 1) := by
              simp only [hinF] at hstep
              constructor
              · omega
              · omega
            simp only [isLeap, Bool.and_eq_true, Bool.or_eq_true, beq_iff_eq, bne_iff_ne,
              ne_eq]
            rw [hyout, hm2]
            obtain ⟨hd4, hd100⟩ := hdvd
            constructor
            · omega
            · left; omega
          · simp only [isLeap, Bool.and_eq_true, Bool.or_eq_true, beq_iff_eq, bne_iff_ne,
              ne_eq]
            rw [hyout, hm2, h399]
            constructor
            · omega
            · right; omega
        rw [hleap]
        norm_num
        omega
      · -- doy ≤ 364, dd ≤ 28 suffices either way
        split <;> omega
    · -- mp ≠ 11: month lengths are fixed
      have hmne2 : m ≠ 2 := by rw [hm]; split <;> omega
      rw [if_neg hc] at hddU
      simp only [daysInMonth, if_neg hmne2]
      have : m = mp + 3 ∨ m = mp - 9 := by rw [hm]; split <;> omega
      split <;> omega
  · -- reassembly
    simp only [civilToDays]
    rw [hshift, hmpm]
    have e4 : (yoe + era * 400) / 4 = yoe / 4 + era * 100 := by omega
    have e100 : (yoe + era * 400) / 100 = yoe / 100 + era * 4 := by omega
    have e400 : (yoe + era * 400) / 400 = era := by omega
    rw [e4, e100, e400]
    have : (153 * mp + 2) / 5 + dd - 1 = doy := hreasm
    simp only [hinF] at hdoy
    omega

theorem daysInMonth_ge (y m : Int) : 28 ≤ daysInMonth y m := by
  simp only [daysInMonth]
  split
  · split <;> omega
  · split <;> omega

theorem daysInMonth_le (y m : Int) : daysInMonth y m ≤ 31 := by
  simp only [daysInMonth]
  split
  · split <;> omega
  · split <;> omega

theorem civilToDays_linear (y m d : Int) :
    civilToDays y m d = civilToDays y m 1 + (d - 1) := by
  simp only [civilToDays]; ring

theorem monthFirst_step (t : Int) :
    monthFirst (t + 1) = monthFirst t + daysInMonth (t / 12) (t % 12 + 1) := by
  simp only [monthFirst]
  have hsucc := civilToDays_month_succ (t / 12) (t % 12 + 1) (by omega) (by omega)
  have hlin := civilToDays_linear (t / 12) (t % 12 + 1) (daysInMonth (t / 12) (t % 12 + 1))
  by_cases hc : t % 12 = 11
  · rw [if_pos (by omega)] at hsucc
    have h1 : (t + 1) / 12 = t / 12 + 1 := by omega
    have h2 : (t + 1) % 12 + 1 = 1 := by omega
    rw [h1, h2]
    omega
  · rw [if_neg (by omega)] at hsucc
    have h1 : (t + 1) / 12 = t / 12 := by omega
    have h2 : (t + 1) % 12 + 1 = t % 12 + 1 + 1 := by omega
    rw [h1, h2]
    omega

theorem monthFirst_mono {a b : Int} (hab : a ≤ b) : monthFirst a ≤ monthFirst b := by
  exact Int.le_induction (P := fun n => monthFirst a ≤ monthFirst n) (le_refl _)
    (fun n hn ih => by
      have h1 := monthFirst_step n
      have h2 := daysInMonth_ge (n / 12) (n % 12 + 1)
      omega) b hab

theorem monthFirst_at (y m : Int) (h1 : 1 ≤ m) (h2 : m ≤ 12) :
    monthFirst (12 * y + (m - 1)) = civilToDays y m 1 := by
  simp only [monthFirst]
  have ha : (12 * y + (m - 1)) / 12 = y := by omega
  have hb : (12 * y + (m - 1)) % 12 + 1 = m := by omega
  rw [ha, hb]

theorem civilToDays_lt {y1 m1 d1 y2 m2 d2 : Int}
    (hm1 : 1 ≤ m1) (hm1' : m1 ≤ 12) (hd1' : d1 ≤ daysInMonth y1 m1)
    (hm2 : 1 ≤ m2) (hm2' : m2 ≤ 12) (hd2 : 1 ≤ d2)
    (hlt : 12 * y1 + m1 < 12 * y2 + m2) :
    civilToDays y1 m1 d1 < civilToDays y2 m2 d2 := by
  have e1 : civilToDays y1 m1 d1 = monthFirst (12 * y1 + (m1 - 1)) + (d1 - 1) := by
    rw [monthFirst_at y1 m1 hm1 hm1', civilToDays_linear]
  have e2 : civilToDays y2 m2 d2 = monthFirst (12 * y2 + (m2 - 1)) + (d2 - 1) := by
    rw [monthFirst_at y2 m2 hm2 hm2', civilToDays_linear]
  have estep := monthFirst_step (12 * y1 + (m1 - 1))
  have ha : (12 * y1 + (m1 - 1)) / 12 = y1 := by omega
  have hb : (12 * y1 + (m1 - 1)) % 12 + 1 = m1 := by omega
  rw [ha, hb] at estep
  have hmono : monthFirst (12 * y1 + (m1 - 1) + 1) ≤ monthFirst (12 * y2 + (m2 - 1)) :=
    monthFirst_mono (by omega)
  omega

theorem civilToDays_inj {y1 m1 d1 y2 m2 d2 : Int}
    (hm1 : 1 ≤ m1) (hm1' : m1 ≤ 12) (hd1 : 1 ≤ d1) (hd1' : d1 ≤ daysInMonth y1 m1)
    (hm2 : 1 ≤ m2) (hm2' : m2 ≤ 12) (hd2 : 1 ≤ d2) (hd2' : d2 ≤ daysInMonth y2 m2)
    (heq : civilToDays y1 m1 d1 = civilToDays y2 m2 d2) :
    y1 = y2 ∧ m1 = m2 ∧ d1 = d2 := by
  rcases lt_trichotomy (12 * y1 + m1) (12 * y2 + m2) with hlt | heqt | hgt
  · exact absurd heq (ne_of_lt (civilToDays_lt hm1 hm1' hd1' hm2 hm2' hd2 hlt))
  · have hy : y1 = y2 := by omega
    have hm : m1 = m2 := by omega
    subst hy; subst hm
    rw [civilToDays_linear y1 m1 d1, civilToDays_linear y1 m1 d2] at heq
    exact ⟨rfl, rfl, by omega⟩
  · exact absurd heq.symm (ne_of_lt (civilToDays_lt hm2 hm2' hd2' hm1 hm1' hd1 hgt))

/-- Roundtrip: converting a valid civil triple to a day number and back is
the identity. -/
theorem civilFromDays_civilToDays {y m d : Int}
    (hm : 1 ≤ m) (hm' : m ≤ 12) (hd : 1 ≤ d) (hd' : d ≤ daysInMonth y m) :
    civilFromDays (civilToDays y m d) = (y, m, d) := by
  obtain ⟨h1, h2, h3, h4, h5⟩ := civilFromDays_spec (civilToDays y m d)
  obtain ⟨hy, hmm, hdd⟩ := civilToDays_inj h1 h2 h3 h4 hm hm' hd hd' h5
  ext <;> simp [hy, hmm, hdd]

theorem mkDate_eq_civilToDays (y m d : Int) (h1 : 1 ≤ m) (h2 : m ≤ 12) :
    mkDate y (m - 1) d = civilToDays y m d := by
  simp only [mkDate]
  have ha : (m - 1) / 12 = 0 := by omega
  have hb : (m - 1) % 12 + 1 = m := by omega
  rw [ha, hb, civilToDays_linear y m d]
  ring_nf

/-- Via `new Date(year, month, 0)` with 1-based `month`, the code obtains the
last day of that month. -/
theorem mkDate_day0 (y m : Int) (h1 : 1 ≤ m) (h2 : m ≤ 12) :
    mkDate y m 0 = civilToDays y m (daysInMonth y m) := by
  simp only [mkDate]
  by_cases hc : m = 12
  · subst hc
    have hd : daysInMonth y 12 = 31 := by simp [daysInMonth]
    have hs := monthSucc12 y
    norm_num
    rw [hd]
    omega
  · have ha : m / 12 = 0 := by omega
    have hb : m % 12 + 1 = m + 1 := by omega
    rw [ha, hb]
    have hsucc := civilToDays_month_succ y m (by omega) (by omega)
    rw [if_neg hc] at hsucc
    have hz : y + 0 = y := by ring
    rw [hz]
    omega

theorem getters_civilToDays {y m d : Int}
    (hm : 1 ≤ m) (hm' : m ≤ 12) (hd : 1 ≤ d) (hd' : d ≤ daysInMonth y m) :
    jsGetFullYear (civilToDays y m d) = y ∧ jsGetMonth (civilToDays y m d) = m - 1 ∧
      jsGetDate (civilToDays y m d) = d := by
  simp only [jsGetFullYear, jsGetMonth, jsGetDate,
    civilFromDays_civilToDays hm hm' hd hd']
  exact ⟨trivial, trivial, trivial⟩

/-- Consistency of the day-shift shortcut with component-wise reconstruction:
`setDate(getDate() + delta)` rebuilt through `MakeDay` agrees with plain
addition on day numbers. -/
theorem jsAddDays_eq_components (z delta : Int) :
    mkDate (jsGetFullYear z) (jsGetMonth z - 1 + 1) (jsGetDate z + delta) =
      jsAddDays z delta := by
  obtain ⟨h1, h2, h3, h4, h5⟩ := civilFromDays_spec z
  simp only [jsGetFullYear, jsGetMonth, jsGetDate, jsAddDays]
  have : (civilFromDays z).2.1 - 1 - 1 + 1 = (civilFromDays z).2.1 - 1 := by ring
  rw [this, mkDate_eq_civilToDays _ _ _ h1 h2, civilToDays_linear]
  have hlin := civilToDays_linear (civilFromDays z).1 (civilFromDays z).2.1
    (civilFromDays z).2.2
  omega

theorem scanFwd_eq (fuel : Nat) (z dow : Int) (h0 : 0 ≤ dow) (h6 : dow ≤ 6)
    (hf : (dow - jsGetDay z) % 7 < (fuel : Int)) :
    scanWeekdayFwd fuel z dow = some (z + (dow - jsGetDay z) % 7) := by
  induction fuel generalizing z with
  | zero => simp only [jsGetDay] at hf; omega
  | succ n ih =>
    by_cases hc : jsGetDay z = dow
    · have hz : (dow - jsGetDay z) % 7 = 0 := by simp only [jsGetDay] at hc ⊢; omega
      simp only [scanWeekdayFwd, if_pos hc, hz, add_zero]
    · have h1 : (dow - jsGetDay (z + 1)) % 7 = (dow - jsGetDay z) % 7 - 1 := by
        simp only [jsGetDay] at hc ⊢; omega
      have h2 : (dow - jsGetDay (z + 1)) % 7 < (n : Int) := by
        push_cast at hf ⊢; omega
      simp only [scanWeekdayFwd, if_neg hc]
      rw [ih (z + 1) h2, h1]
      congr 1
      omega

theorem scanFwd_min (z dow u : Int) (h1 : z ≤ u) (h2 : u < z + (dow - jsGetDay z) % 7) :
    jsGetDay u ≠ dow := by
  simp only [jsGetDay] at h2 ⊢
  omega

theorem jsGetDay_fwd_ofs (z dow : Int) (h0 : 0 ≤ dow) (h6 : dow ≤ 6) :
    jsGetDay (z + (dow - jsGetDay z) % 7) = dow := by
  simp only [jsGetDay]; omega

theorem scanBwd_eq (fuel : Nat) (z dow : Int) (h0 : 0 ≤ dow) (h6 : dow ≤ 6)
    (hf : (jsGetDay z - dow) % 7 < (fuel : Int)) :
    scanWeekdayBwd fuel z dow = some (z - (jsGetDay z - dow) % 7) := by
  induction fuel generalizing z with
  | zero => simp only [jsGetDay] at hf; omega
  | succ n ih =>
    by_cases hc : jsGetDay z = dow
    · have hz : (jsGetDay z - dow) % 7 = 0 := by simp only [jsGetDay] at hc ⊢; omega
      simp only [scanWeekdayBwd, if_pos hc, hz, sub_zero]
    · have h1 : (jsGetDay (z - 1) - dow) % 7 = (jsGetDay z - dow) % 7 - 1 := by
        simp only [jsGetDay] at hc ⊢; omega
      have h2 : (jsGetDay (z - 1) - dow) % 7 < (n : Int) := by
        push_cast at hf ⊢; omega
      simp only [scanWeekdayBwd, if_neg hc]
      rw [ih (z - 1) h2, h1]
      congr 1
      omega

theorem scanBwd_max (z dow u : Int) (h1 : u ≤ z) (h2 : z - (jsGetDay z - dow) % 7 < u) :
    jsGetDay u ≠ dow := by
  simp only [jsGetDay] at h2 ⊢
  omega

theorem jsGetDay_bwd_ofs (z dow : Int) (h0 : 0 ≤ dow) (h6 : dow ≤ 6) :
    jsGetDay (z - (jsGetDay z - dow) % 7) = dow := by
  simp only [jsGetDay]; omega

/-- Membership of a day number in a civil month, expressed through the
getters and through the day-number interval of the month. -/
theorem month_mem_iff (y m u : Int) (hm : 1 ≤ m) (hm' : m ≤ 12) :
    (jsGetFullYear u = y ∧ jsGetMonth u = m - 1) ↔
      (civilToDays y m 1 ≤ u ∧ u ≤ civilToDays y m (daysInMonth y m)) := by
  obtain ⟨h1, h2, h3, h4, h5⟩ := civilFromDays_spec u
  constructor
  · rintro ⟨hy, hmm⟩
    simp only [jsGetFullYear] at hy
    simp only [jsGetMonth] at hmm
    have hyy : (civilFromDays u).1 = y := hy
    have hmm' : (civilFromDays u).2.1 = m := by omega
    rw [hyy, hmm'] at h5 h4
    have l1 := civilToDays_linear y m (civilFromDays u).2.2
    have l2 := civilToDays_linear y m 1
    have l3 := civilToDays_linear y m (daysInMonth y m)
    omega
  · rintro ⟨hlo, hhi⟩
    have hd : u = civilToDays y m (u - civilToDays y m 1 + 1) := by
      rw [civilToDays_linear y m (u - civilToDays y m 1 + 1)]
      omega
    have l3 := civilToDays_linear y m (daysInMonth y m)
    have hvalid : 1 ≤ u - civilToDays y m 1 + 1 ∧
        u - civilToDays y m 1 + 1 ≤ daysInMonth y m := by omega
    obtain ⟨hg1, hg2, _⟩ := getters_civilToDays (y := y) hm hm' hvalid.1 hvalid.2
    constructor
    · rw [hd]; exact hg1
    · rw [hd]; exact hg2

/-- The first-match semantics of `Array.prototype.find` modelled by
`List.find?`: with no match in the prefix and a match at the head of the
suffix, the found element is that head. -/
theorem find?_first {p : Event → Bool} (pre suf : List Event) (e0 : Event)
    (hpre : ∀ x ∈ pre, p x = false) (he : p e0 = true) :
    (pre ++ e0 :: suf).find? p = some e0 := by
  induction pre with
  | nil => simp [List.find?, he]
  | cons a t ih =>
    have ha : p a = false := hpre a (by simp)
    simp only [List.cons_append, List.find?, ha]
    exact ih (fun x hx => hpre x (by simp [hx]))

/-- Divergence of the unguarded reference recursion on a two-cycle (or, with
`e1 = e2`, on a self-reference): if each event's title lookup finds the
other, resolution runs out of fuel at every depth. -/
theorem cycle2_diverges (e1 e2 : Event) (evs : List Event)
    (n1 n2 : String) (p1 p2 : Int) (u1 u2 d1 d2 : String)
    (ht1 : e1.dateType = "relative") (ht2 : e2.dateType = "relative")
    (hn1 : e1.relativeEventName = some n1) (hn2 : e2.relativeEventName = some n2)
    (hp1 : e1.relativePeriod = some p1) (hp2 : e2.relativePeriod = some p2)
    (hu1 : e1.relativeUnit = some u1) (hu2 : e2.relativeUnit = some u2)
    (hd1 : e1.relativeDirection = some d1) (hd2 : e2.relativeDirection = some d2)
    (hne1 : n1 ≠ "") (hne2 : n2 ≠ "") (hpz1 : p1 ≠ 0) (hpz2 : p2 ≠ 0)
    (hue1 : u1 ≠ "") (hue2 : u2 ≠ "") (hde1 : d1 ≠ "") (hde2 : d2 ≠ "")
    (hf1 : evs.find? (fun x => x.title == n1) = some e2)
    (hf2 : evs.find? (fun x => x.title == n2) = some e1) :
    ∀ fuel cy, calculateEventDate fuel cy e1 evs = .diverged ∧
      calculateEventDate fuel cy e2 evs = .diverged := by
  intro fuel
  induction fuel with
  | zero => intro cy; exact ⟨rfl, rfl⟩
  | succ n ih =>
    intro cy
    obtain ⟨ihA, ihB⟩ := ih cy
    constructor
    · simp only [calculateEventDate, ht1, hn1, hp1, hu1, hd1, hf1, ihB]
      rw [if_neg (by simp [hne1, hpz1, hue1, hde1])]
    · simp only [calculateEventDate, ht2, hn2, hp2, hu2, hd2, hf2, ihA]
      rw [if_neg (by simp [hne2, hpz2, hue2, hde2])]

/-- C1: the claim states that date resolution always terminates, with
self- or mutually-referencing relative events resolving to a
circular-reference failure via a visited-set.  The code has no visited-set:
on a self-referencing event, and on a pair of events referencing each
other by title, `calculateEventDate` recurses unboundedly — the bounded
model runs out of fuel at every depth, which in JavaScript is an unbounded
recursion ending in a stack overflow, not a returned failure value. -/
theorem calculateEventDate_cycles_diverge :
    ∀ fuel currentYear,
      calculateEventDate fuel currentYear evCycleSelf [evCycleSelf] = .diverged ∧
      calculateEventDate fuel currentYear evCycleA [evCycleA, evCycleB] = .diverged ∧
      calculateEventDate fuel currentYear evCycleB [evCycleA, evCycleB] = .diverged := by
  intro fuel cy
  have hself := cycle2_diverges evCycleSelf evCycleSelf [evCycleSelf]
    "Launch" "Launch" 3 3 "days" "days" "before" "before"
    rfl rfl rfl rfl rfl rfl rfl rfl rfl rfl
    (by decide) (by decide) (by decide) (by decide) (by decide) (by decide)
    (by decide) (by decide) (by decide) (by decide) fuel cy
  have hmut := cycle2_diverges evCycleA evCycleB [evCycleA, evCycleB]
    "Beta" "Alpha" 1 2 "weeks" "days" "after" "before"
    rfl rfl rfl rfl rfl rfl rfl rfl rfl rfl
    (by decide) (by decide) (by decide) (by decide) (by decide) (by decide)
    (by decide) (by decide) (by decide) (by decide) fuel cy
  exact ⟨hself.1, hmut.1, hmut.2⟩

/-- C2 counterexample: two distinct failure causes — missing fields
(`evMissingDow`, an nth event with `dayOfWeek` null) and
reference-not-found (`evRefNF`) — produce the one untagged failure value
`null`, so the caller cannot tell the causes apart, contradicting the
claimed tagged unresolvable result. -/
theorem calculateEventDate_failures_equal :
    calculateEventDate 1 2024 evMissingDow [evMissingDow, evRefNF] =
        calculateEventDate 1 2024 evRefNF [evMissingDow, evRefNF] ∧
      calculateEventDate 1 2024 evMissingDow [evMissingDow, evRefNF] = .value none := by
  constructor
  · decide
  · decide

/-- C2 (amended): the resolver's result is a date or the single untagged
`null`; the missing-fields, no-such-occurrence, invalid-unit and
reference-not-found conditions all yield that same `null` at every
sufficient recursion depth, while a circular reference yields unbounded
recursion rather than any failure value. -/
theorem calculateEventDate_failure_taxonomy :
    (∀ fuel cy, calculateEventDate (fuel + 1) cy evMissingDow [evMissingDow] = .value none) ∧
      (∀ fuel cy, calculateEventDate (fuel + 1) cy evNoOcc [evNoOcc] = .value none) ∧
      (∀ fuel cy,
        calculateEventDate (fuel + 2) cy evBadUnitOk [evAnchor, evBadUnitOk] = .value none) ∧
      (∀ fuel cy, calculateEventDate (fuel + 1) cy evRefNF [evRefNF] = .value none) ∧
      (∀ fuel cy, calculateEventDate fuel cy evCycleSelf [evCycleSelf] = .diverged) := by
  refine ⟨fun fuel cy => rfl, fun fuel cy => rfl, fun fuel cy => rfl, fun fuel cy => rfl,
    fun fuel cy => ?_⟩
  exact (cycle2_diverges evCycleSelf evCycleSelf [evCycleSelf]
    "Launch" "Launch" 3 3 "days" "days" "before" "before"
    rfl rfl rfl rfl rfl rfl rfl rfl rfl rfl
    (by decide) (by decide) (by decide) (by decide) (by decide) (by decide)
    (by decide) (by decide) (by decide) (by decide) fuel cy).1

/-- C3: for every type-correct event (field types of the schema plus the
boundary validation bounds), the resolver terminates and returns the
unresolvable result `null` — no exception escapes and no recursion occurs —
whenever a required field of the active mode is missing/null, or the
relative unit lies outside `days/weeks/months/years` (for a type-correct
record a unit outside the set can only be the null unit, which the
missing-field guard catches before any lookup). -/
theorem calculateEventDate_unresolvable_input_safe :
    ∀ (e : Event) evs fuel cy, typeCorrect e = true →
      (missingActiveField e ∨
        (e.dateType = "relative" ∧
          ∀ u, e.relativeUnit = some u →
            ¬(u = "days" ∨ u = "weeks" ∨ u = "months" ∨ u = "years"))) →
      calculateEventDate (fuel + 1) cy e evs = .value none := by
  intro e evs fuel cy htc hcond
  rcases hcond with hmiss | ⟨hrel, hunit⟩
  · rcases hmiss with ⟨hft, hsd⟩ | ⟨hnt, hm3⟩ | ⟨hrt, hm4⟩
    · simp [calculateEventDate, hft, hsd, truthyDV]
    · rcases h1 : e.nthOccurrence with _ | a <;> rcases h2 : e.dayOfWeek with _ | b <;>
        rcases h3 : e.month with _ | c <;>
        simp_all [calculateEventDate]
    · rcases h1 : e.relativeEventName with _ | a <;> rcases h2 : e.relativePeriod with _ | b <;>
        rcases h3 : e.relativeUnit with _ | c <;> rcases h4 : e.relativeDirection with _ | d <;>
        simp_all [calculateEventDate]
  · rcases hu : e.relativeUnit with _ | u
    · rcases h1 : e.relativeEventName with _ | a <;> rcases h2 : e.relativePeriod with _ | b <;>
        rcases h4 : e.relativeDirection with _ | d <;>
        simp_all [calculateEventDate]
    · exfalso
      have hb := hunit u hu
      simp only [typeCorrect, hu, Bool.and_eq_true, Bool.or_eq_true, beq_iff_eq] at htc
      exact hb (by tauto)

/-- Witness for the C3 theorem at a concrete input: an nth-mode,
type-correct event whose `dayOfWeek` is null resolves to `null`. -/
theorem calculateEventDate_unresolvable_input_safe_witness :
    calculateEventDate 1 2024 evMissingDow [evMissingDow] = .value none :=
  calculateEventDate_unresolvable_input_safe evMissingDow [evMissingDow] 0 2024
    (by decide) (Or.inl (by decide))

/-- C4: fixed-mode resolution of a string `startDate` splits off the
date-only `YYYY-MM-DD` prefix at `'T'`, splits it at `'-'` and constructs
the date from the literal parsed year/month/day components (so its civil
components are exactly the literal ones whenever they are in range — no
timezone-dependent conversion is involved); a fixed event with `startDate`
absent resolves to `null`. -/
theorem calculateEventDate_fixed_literal :
    (∀ (e : Event) evs fuel cy s ys ms ds yv mv dv,
      e.dateType = "fixed" → e.startDate = some (.str s) → s ≠ "" →
      (jsSplit '-' ((jsSplit 'T' s.data).headD []))[0]? = some ys →
      (jsSplit '-' ((jsSplit 'T' s.data).headD []))[1]? = some ms →
      (jsSplit '-' ((jsSplit 'T' s.data).headD []))[2]? = some ds →
      jsParseInt ys = some yv → jsParseInt ms = some mv → jsParseInt ds = some dv →
      calculateEventDate (fuel + 1) cy e evs = .value (some (mkDate yv (mv - 1) dv)) ∧
        (1 ≤ mv → mv ≤ 12 → 1 ≤ dv → dv ≤ daysInMonth yv mv →
          jsGetFullYear (mkDate yv (mv - 1) dv) = yv ∧
            jsGetMonth (mkDate yv (mv - 1) dv) = mv - 1 ∧
            jsGetDate (mkDate yv (mv - 1) dv) = dv)) ∧
    (∀ (e : Event) evs fuel cy, e.dateType = "fixed" → e.startDate = none →
      calculateEventDate (fuel + 1) cy e evs = .value none) := by
  constructor
  · intro e evs fuel cy s ys ms ds yv mv dv hft hsd hs h0 h1 h2 hy hm hd
    constructor
    · have htr : truthyDV (some (DateValue.str s)) = true := by
        simp [truthyDV, hs]
      simp only [calculateEventDate, hft, hsd, Option.bind,
        parseSimpleDate, h0, h1, h2, hy, hm, hd, htr, if_true]
    · intro hmv1 hmv2 hdv1 hdv2
      rw [mkDate_eq_civilToDays yv mv dv hmv1 hmv2]
      exact getters_civilToDays hmv1 hmv2 hdv1 hdv2
  · intro e evs fuel cy hft hsd
    simp [calculateEventDate, hft, hsd, truthyDV]

/-- Witness for the C4 theorem at a concrete input: the fixed event with
start date string `2024-06-01` resolves to the civil date 2024-06-01. -/
theorem calculateEventDate_fixed_literal_witness :
    calculateEventDate 1 2024 evAnchor [] = .value (some (mkDate 2024 5 1)) ∧
      jsGetFullYear (mkDate 2024 5 1) = 2024 ∧ jsGetMonth (mkDate 2024 5 1) = 5 ∧
      jsGetDate (mkDate 2024 5 1) = 1 := by
  have h := calculateEventDate_fixed_literal.1 evAnchor [] 0 2024 "2024-06-01"
    "2024".data "06".data "01".data 2024 6 1
    rfl rfl (by decide) (by decide) (by decide) (by decide)
    (by decide) (by decide) (by decide)
  refine ⟨h.1, ?_⟩
  have h2 := h.2 (by decide) (by decide) (by decide) (by decide)
  simpa using h2

/-- C5: for day-of-week 0..6, month 1..12 and occurrence 1..4,
`calculateNthDate` finds occurrence #1 as the first date of the requested
month whose weekday equals `dayOfWeek` (the least such date of the month),
advances it by `(nthOccurrence-1)*7` days, and fails with an error — rather
than clamping — exactly when the advanced date's month differs from the
requested month; in particular for March 2024 and dayOfWeek 2 (Tuesday)
occurrence 1 is 2024-03-05. -/
theorem calculateNthDate_forward_spec :
    (∀ y m dow n, 1 ≤ m → m ≤ 12 → 0 ≤ dow → dow ≤ 6 → 1 ≤ n → n ≤ 4 →
      ∃ occ1,
        jsGetFullYear occ1 = y ∧ jsGetMonth occ1 = m - 1 ∧ jsGetDay occ1 = dow ∧
          (∀ u, jsGetFullYear u = y → jsGetMonth u = m - 1 → jsGetDay u = dow →
            occ1 ≤ u) ∧
          calculateNthDate n dow m y =
            (if jsGetMonth (occ1 + (n - 1) * 7) = m - 1 then some (occ1 + (n - 1) * 7)
              else none)) ∧
      calculateNthDate 1 2 3 2024 = some (civilToDays 2024 3 5) := by
  constructor
  · intro y m dow n hm1 hm2 hd0 hd6 hn1 hn4
    have hge := daysInMonth_ge y m
    set first := civilToDays y m 1 with hfirst
    have hofs0 : 0 ≤ (dow - jsGetDay first) % 7 := by simp only [jsGetDay]; omega
    have hofs6 : (dow - jsGetDay first) % 7 ≤ 6 := by simp only [jsGetDay]; omega
    set ofs := (dow - jsGetDay first) % 7 with hofs
    have hlin : first + ofs = civilToDays y m (1 + ofs) := by
      rw [civilToDays_linear y m (1 + ofs)]; omega
    have hg := getters_civilToDays (y := y) hm1 hm2
      (by omega : (1:Int) ≤ 1 + ofs) (by omega : 1 + ofs ≤ daysInMonth y m)
    refine ⟨first + ofs, ?_, ?_, ?_, ?_, ?_⟩
    · rw [hlin]; exact hg.1
    · rw [hlin]; exact hg.2.1
    · exact jsGetDay_fwd_ofs first dow hd0 hd6
    · intro u hyu hmu hwu
      have hmem := (month_mem_iff y m u hm1 hm2).mp ⟨hyu, hmu⟩
      by_contra hcon
      push_neg at hcon
      exact scanFwd_min first dow u hmem.1 hcon hwu
    · have hscan := scanFwd_eq 7 first dow hd0 hd6 (by push_cast; omega)
      simp only [calculateNthDate, mkDate_eq_civilToDays y m 1 hm1 hm2, ← hfirst, hscan,
        jsAddDays, ← hofs]
      rw [if_neg (by omega : ¬ n = -1)]
      by_cases hc : jsGetMonth (first + ofs + (n - 1) * 7) = m - 1
      · rw [if_neg (by simp [hc]), if_pos hc]
      · rw [if_pos hc, if_neg hc]
  · decide

/-- Witness for the C5 theorem at the concrete input of the claim: March
2024, Tuesday (2), occurrence 1. -/
theorem calculateNthDate_forward_spec_witness :
    ∃ occ1,
      jsGetFullYear occ1 = 2024 ∧ jsGetMonth occ1 = 3 - 1 ∧ jsGetDay occ1 = 2 ∧
        (∀ u, jsGetFullYear u = 2024 → jsGetMonth u = 3 - 1 → jsGetDay u = 2 →
          occ1 ≤ u) ∧
        calculateNthDate 1 2 3 2024 =
          (if jsGetMonth (occ1 + (1 - 1) * 7) = 3 - 1 then some (occ1 + (1 - 1) * 7)
            else none) :=
  calculateNthDate_forward_spec.1 2024 3 2 1 (by decide) (by decide) (by decide)
    (by decide) (by decide) (by decide)

/-- C6: for day-of-week 0..6 and month 1..12, `calculateNthDate` with
occurrence -1 walks backward from the last calendar day of the month and
returns a date that lies in the requested month and year and is the
greatest date of that month with the given weekday; in particular the last
Friday of March 2024 is 2024-03-29. -/
theorem calculateNthDate_last_spec :
    (∀ y m dow, 1 ≤ m → m ≤ 12 → 0 ≤ dow → dow ≤ 6 →
      ∃ r, calculateNthDate (-1) dow m y = some r ∧
        jsGetFullYear r = y ∧ jsGetMonth r = m - 1 ∧ jsGetDay r = dow ∧
          (∀ u, jsGetFullYear u = y → jsGetMonth u = m - 1 → jsGetDay u = dow →
            u ≤ r)) ∧
      calculateNthDate (-1) 5 3 2024 = some (civilToDays 2024 3 29) := by
  constructor
  · intro y m dow hm1 hm2 hd0 hd6
    have hge := daysInMonth_ge y m
    set lastD := civilToDays y m (daysInMonth y m) with hlast
    have hofs0 : 0 ≤ (jsGetDay lastD - dow) % 7 := by simp only [jsGetDay]; omega
    have hofs6 : (jsGetDay lastD - dow) % 7 ≤ 6 := by simp only [jsGetDay]; omega
    set ofs := (jsGetDay lastD - dow) % 7 with hofs
    have l1 := civilToDays_linear y m (daysInMonth y m - ofs)
    have l2 := civilToDays_linear y m (daysInMonth y m)
    have hlin : lastD - ofs = civilToDays y m (daysInMonth y m - ofs) := by omega
    have hg := getters_civilToDays (y := y) hm1 hm2
      (by omega : (1:Int) ≤ daysInMonth y m - ofs)
      (by omega : daysInMonth y m - ofs ≤ daysInMonth y m)
    refine ⟨lastD - ofs, ?_, ?_, ?_, ?_, ?_⟩
    · have hscanF := scanFwd_eq 7 (civilToDays y m 1) dow hd0 hd6
        (by push_cast; simp only [jsGetDay]; omega)
      have hscanB := scanBwd_eq 7 lastD dow hd0 hd6 (by push_cast; omega)
      simp only [calculateNthDate, mkDate_eq_civilToDays y m 1 hm1 hm2, hscanF,
        reduceIte, mkDate_day0 y m hm1 hm2, ← hlast]
      rw [hscanB, ← hofs]
    · rw [hlin]; exact hg.1
    · rw [hlin]; exact hg.2.1
    · exact jsGetDay_bwd_ofs lastD dow hd0 hd6
    · intro u hyu hmu hwu
      have hmem := (month_mem_iff y m u hm1 hm2).mp ⟨hyu, hmu⟩
      by_contra hcon
      push_neg at hcon
      exact scanBwd_max lastD dow u hmem.2 hcon hwu
  · decide

/-- Witness for the C6 theorem at the concrete input of the claim: the last
Friday of March 2024. -/
theorem calculateNthDate_last_spec_witness :
    ∃ r, calculateNthDate (-1) 5 3 2024 = some r ∧
      jsGetFullYear r = 2024 ∧ jsGetMonth r = 3 - 1 ∧ jsGetDay r = 5 ∧
        (∀ u, jsGetFullYear u = 2024 → jsGetMonth u = 3 - 1 → jsGetDay u = 5 →
          u ≤ r) :=
  calculateNthDate_last_spec.1 2024 3 5 (by decide) (by decide) (by decide) (by decide)

/-- C7: `calculateRelativeDate` applies a signed offset (multiplier -1 for
`before`, +1 otherwise): `days` adds the period in days, `weeks` adds seven
times the period in days, `months` rebuilds the date with the month index
shifted by the signed period (calendar-month addition with JavaScript's
overflow normalisation), `years` shifts the year likewise, and any other
unit fails with the invalid-unit error; when the shifted month stays inside
the same year and the day exists there, month addition lands on the same
day of the target month.  Concretely, 2024-12-25 minus 3 days is
2024-12-22 and 2024-12-25 plus 1 month is 2025-01-25. -/
theorem calculateRelativeDate_spec :
    (∀ base p dir,
      calculateRelativeDate base p "days" dir =
          some (base + p * (if dir = "before" then -1 else 1)) ∧
        calculateRelativeDate base p "weeks" dir =
          some (base + p * 7 * (if dir = "before" then -1 else 1)) ∧
        calculateRelativeDate base p "months" dir =
          some (mkDate (jsGetFullYear base)
            (jsGetMonth base + p * (if dir = "before" then -1 else 1))
            (jsGetDate base)) ∧
        calculateRelativeDate base p "years" dir =
          some (mkDate (jsGetFullYear base + p * (if dir = "before" then -1 else 1))
            (jsGetMonth base) (jsGetDate base)) ∧
        (∀ u, u ≠ "days" → u ≠ "weeks" → u ≠ "months" → u ≠ "years" →
          calculateRelativeDate base p u dir = none)) ∧
      (∀ y m d p, 1 ≤ m → m ≤ 12 → 1 ≤ d → d ≤ daysInMonth y m → 1 ≤ p →
        m + p ≤ 12 → d ≤ daysInMonth y (m + p) →
        calculateRelativeDate (civilToDays y m d) p "months" "after" =
          some (civilToDays y (m + p) d)) ∧
      calculateRelativeDate (civilToDays 2024 12 25) 3 "days" "before" =
        some (civilToDays 2024 12 22) ∧
      calculateRelativeDate (civilToDays 2024 12 25) 1 "months" "after" =
        some (civilToDays 2025 1 25) := by
  refine ⟨?_, ?_, ?_, ?_⟩
  · intro base p dir
    refine ⟨rfl, rfl, rfl, rfl, ?_⟩
    intro u h1 h2 h3 h4
    simp only [calculateRelativeDate]
  · intro y m d p hm1 hm2 hd1 hd2 hp1 hmp hdp
    have hg := getters_civilToDays (y := y) hm1 hm2 hd1 hd2
    simp only [calculateRelativeDate, jsSetMonth, hg.1, hg.2.1, hg.2.2]
    rw [if_neg (by decide : ¬ ("after" : String) = "before")]
    rw [show m - 1 + p * 1 = (m + p) - 1 by ring,
      mkDate_eq_civilToDays y (m + p) d (by omega) (by omega)]
  · decide
  · decide

/-- Witness for the C7 theorem at a concrete input: two calendar months
after 2024-06-10 is 2024-08-10. -/
theorem calculateRelativeDate_spec_witness :
    calculateRelativeDate (civilToDays 2024 6 10) 2 "months" "after" =
      some (civilToDays 2024 8 10) :=
  calculateRelativeDate_spec.2.1 2024 6 10 2 (by decide) (by decide) (by decide)
    (by decide) (by decide) (by decide) (by decide)

/-- C8: relative-mode resolution selects the referenced event by exact
string equality of `title` with `relativeEventName`, taking the first match
in the snapshot's stored order, and resolves against that event; when no
event's title matches, resolution fails with the reference-not-found
result `null`. -/
theorem calculateEventDate_reference_lookup :
    (∀ (e : Event) evs fuel cy name p u d,
      e.dateType = "relative" → e.relativeEventName = some name →
      e.relativePeriod = some p → e.relativeUnit = some u →
      e.relativeDirection = some d →
      name ≠ "" → p ≠ 0 → u ≠ "" → d ≠ "" →
      (∀ x ∈ evs, x.title ≠ name) →
      calculateEventDate (fuel + 1) cy e evs = .value none) ∧
    (∀ (e e0 : Event) (pre suf : List Event) fuel cy name p u d,
      e.dateType = "relative" → e.relativeEventName = some name →
      e.relativePeriod = some p → e.relativeUnit = some u →
      e.relativeDirection = some d →
      name ≠ "" → p ≠ 0 → u ≠ "" → d ≠ "" →
      (∀ x ∈ pre, x.title ≠ name) → e0.title = name →
      calculateEventDate (fuel + 1) cy e (pre ++ e0 :: suf) =
        (match calculateEventDate fuel cy e0 (pre ++ e0 :: suf) with
          | .diverged => .diverged
          | .value none => .value none
          | .value (some rd) => .value (calculateRelativeDate rd p u d))) := by
  constructor
  · intro e evs fuel cy name p u d ht hn hp hu hd hne hpz hue hde hno
    have hfind : evs.find? (fun x => x.title == name) = none := by
      rw [List.find?_eq_none]
      intro x hx
      simp [hno x hx]
    simp only [calculateEventDate, ht, hn, hp, hu, hd, hfind]
    rw [if_neg (by simp [hne, hpz, hue, hde])]
  · intro e e0 pre suf fuel cy name p u d ht hn hp hu hd hne hpz hue hde hpre he0
    have hfind : (pre ++ e0 :: suf).find? (fun x => x.title == name) = some e0 :=
      find?_first pre suf e0 (fun x hx => by simp [hpre x hx]) (by simp [he0])
    simp only [calculateEventDate, ht, hn, hp, hu, hd, hfind]
    rw [if_neg (by simp [hne, hpz, hue, hde])]

/-- Witness for the C8 theorem at a concrete input: an event referencing
the title `Nobody` in a snapshot without such a title resolves to `null`. -/
theorem calculateEventDate_reference_lookup_witness :
    calculateEventDate 1 2024 evRefNF [evAnchor, evMissingDow] = .value none :=
  calculateEventDate_reference_lookup.1 evRefNF [evAnchor, evMissingDow] 0 2024
    "Nobody" 1 "days" "after" rfl rfl rfl rfl rfl (by decide) (by decide) (by decide)
    (by decide) (by decide)

/-- C9 counterexample: the resolver is not a pure function of the event and
the snapshot alone — an nth-mode event without a `baseYear` reads
`new Date().getFullYear()`, so resolving the same event against the same
snapshot at wall-clock year 2024 and at wall-clock year 2025 returns two
different dates. -/
theorem calculateEventDate_clock_dependent :
    calculateEventDate 1 2024 evNoBase [evNoBase] ≠
      calculateEventDate 1 2025 evNoBase [evNoBase] := by decide

/-- C9 (amended): resolving the same event twice against the same snapshot
yields identical output whenever the wall-clock year is unchanged between
the calls or no event involved is an nth-mode event with a falsy
`baseYear`; the resolver is a pure function of the event, the snapshot and
the current year, and independent of the current year as soon as every
nth-mode event carries a `baseYear`. -/
theorem calculateEventDate_deterministic :
    ∀ fuel (e : Event) evs y1 y2,
      clockFree e = true → (∀ x ∈ evs, clockFree x = true) →
      calculateEventDate fuel y1 e evs = calculateEventDate fuel y2 e evs := by
  intro fuel
  induction fuel with
  | zero => intro e evs y1 y2 _ _; rfl
  | succ n ih =>
    intro e evs y1 y2 hcf hall
    by_cases hft : e.dateType = "fixed"
    · simp only [calculateEventDate, hft]
    · by_cases hnt : e.dateType = "nth"
      · rcases hby : e.baseYear with _ | b
        · exfalso
          simp [clockFree, hnt, hby] at hcf
        · have hb0 : b ≠ 0 := by
            simpa [clockFree, hnt, hby] using hcf
          rcases h1 : e.nthOccurrence with _ | a <;>
            rcases h2 : e.dayOfWeek with _ | w <;>
            rcases h3 : e.month with _ | mo <;>
            simp [calculateEventDate, hnt, h1, h2, h3, hby, hb0]
      · by_cases hrt : e.dateType = "relative"
        · rcases h1 : e.relativeEventName with _ | name <;>
            rcases h2 : e.relativePeriod with _ | p <;>
            rcases h3 : e.relativeUnit with _ | u <;>
            rcases h4 : e.relativeDirection with _ | d <;>
            simp only [calculateEventDate, hrt, h1, h2, h3, h4]
          by_cases hguard : name = "" ∨ p = 0 ∨ u = "" ∨ d = ""
          · simp [hguard]
          · rw [if_neg hguard, if_neg hguard]
            rcases hf : evs.find? (fun x => x.title == name) with _ | x
            · simp only [hf]
            · have hx : x ∈ evs := List.mem_of_find?_eq_some hf
              simp only [hf]
              rw [ih x evs y1 y2 (hall x hx) hall]
        · simp only [calculateEventDate]

/-- Witness for the amended C9 theorem at a concrete input: an nth-mode
event with a stored `baseYear` resolves identically at wall-clock years
2024 and 2025. -/
theorem calculateEventDate_deterministic_witness :
    calculateEventDate 1 2024 evMissingDow [evMissingDow] =
      calculateEventDate 1 2025 evMissingDow [evMissingDow] :=
  calculateEventDate_deterministic 1 evMissingDow [evMissingDow] 2024 2025
    (by decide) (by decide)
